import Mathlib

/-!
Verification of `src/dynaconf/loaders/base.py` (class `BaseLoader`).

The loader is shallowly embedded: Python dict values become the inductive
type `PValue`, Python dicts become ordered association lists
(`List (String × _)`) with Python's insertion semantics, and the loader's
side effects on the settings store (`obj.update` / `obj.set`) together with
the warnings it logs become an explicit event trace `List LoadEvent`.
A `KeyError` raised in non-silent mode becomes `Except.error` carrying the
error message.  Debug-level log lines and the `obj._loaded_files` audit
list are diagnostics with no behavioural effect and are not modelled.
-/

set_option autoImplicit false

/-- A Python value as it can occur in parsed configuration data:
`None`, booleans, integers, strings and (ordered) dicts. -/
inductive PValue where
  | none : PValue
  | bool : Bool → PValue
  | int : Int → PValue
  | str : String → PValue
  | dict : List (String × PValue) → PValue

/-- Python truthiness (`bool(v)`): `None`, `False`, `0`, `""` and `{}`
are falsy, everything else is truthy. -/
def pyTruthy : PValue → Bool
  | PValue.none => false
  | PValue.bool b => b
  | PValue.int n => n != 0
  | PValue.str s => s != ""
  | PValue.dict d => !d.isEmpty

/-- Python's `v is True`: identity with the singleton `True` object, hence
true exactly for the boolean value `True` and for no other value. -/
def pyIsTrue : PValue → Bool
  | PValue.bool b => b
  | _ => false

/-- Has the dict an entry with this key?  (`k in d`) -/
def dictHasKey {α : Type} (d : List (String × α)) (k : String) : Bool :=
  d.any (fun p => p.1 == k)

/-- `d.get(k)` returning `Option`: the value at the first matching key. -/
def dictGetOpt {α : Type} (d : List (String × α)) (k : String) : Option α :=
  (d.find? (fun p => p.1 == k)).map (fun p => p.2)

/-- `d.get(k, dflt)`: lookup with a default. -/
def dictGetD {α : Type} (d : List (String × α)) (k : String) (dflt : α) : α :=
  (dictGetOpt d k).getD dflt

/-- Python dict assignment `d[k] = v`: if the key is present its value is
replaced in place (keeping its position), otherwise the pair is appended. -/
def dictInsert {α : Type} (d : List (String × α)) (k : String) (v : α) :
    List (String × α) :=
  if dictHasKey d k then
    d.map (fun p => if p.1 == k then (k, v) else p)
  else
    d ++ [(k, v)]

/-- Remove the first entry with the given key, keeping the rest in order. -/
def dictRemove {α : Type} (d : List (String × α)) (k : String) :
    List (String × α) :=
  match d with
  | [] => []
  | p :: rest => if p.1 == k then rest else p :: dictRemove rest k

/-- Python `d.pop(k, dflt)` modelled functionally: `some (value, rest)` when
the key is present, `Option.none` when it is absent. -/
def dictPop {α : Type} (d : List (String × α)) (k : String) :
    Option (α × List (String × α)) :=
  match d with
  | [] => Option.none
  | p :: rest =>
      if p.1 == k then some (p.2, rest)
      else
        match dictPop rest k with
        | some q => some (q.1, p :: q.2)
        | Option.none => Option.none

def charsStartWith : List Char → List Char → Bool
  | _, [] => true
  | [], _ :: _ => false
  | a :: as, b :: bs => a == b && charsStartWith as bs

def charsContain (hay sub : List Char) : Bool :=
  match hay with
  | [] => sub.isEmpty
  | _ :: t => charsStartWith hay sub || charsContain t sub

/-- Python `str.upper()` (ASCII configuration keys), character-wise. -/
def strUpper (s : String) : String := String.mk (s.data.map Char.toUpper)

/-- Python `str.lower()` (ASCII environment names), character-wise. -/
def strLower (s : String) : String := String.mk (s.data.map Char.toLower)

def trimChars (cs : List Char) : List Char :=
  ((cs.dropWhile Char.isWhitespace).reverse.dropWhile Char.isWhitespace).reverse

/-- Whitespace-trimming of a string, character-wise. -/
def strTrim (s : String) : String := String.mk (trimChars s.data)

def splitCommaAux : List Char → List Char → List String
  | [], cur => [String.mk cur.reverse]
  | c :: rest, cur =>
      if c == ',' then String.mk cur.reverse :: splitCommaAux rest []
      else splitCommaAux rest (c :: cur)

/-- Split a string on "," into its comma-separated pieces. -/
def splitComma (s : String) : List String := splitCommaAux s.data []

/-- Python's substring test `sub in s` (used for `"secret" in source_file`,
line 185 of `base.py`). -/
def strContains (s sub : String) : Bool := charsContain s.data sub.data

/-- Boolean string suffix test: is `e` a suffix of `s`? -/
def strEndsWith (s e : String) : Bool :=
  charsStartWith s.data.reverse e.data.reverse

/-- Python `s.endswith(extensions)` with a tuple argument: true iff some
extension in the list is a suffix of `s`. -/
def endsWithAny (s : String) (exts : List String) : Bool :=
  exts.any (fun e => strEndsWith s e)

/-- Modelled from the spec: `upperfy` is imported from `dynaconf.utils`,
which is not among the sources under review; §4.5 step 1 says every
top-level key (and a requested single-key filter) is re-keyed "to an
upper-case form".  Modelled as plain upper-casing. -/
def upperfy (key : String) : String := strUpper key

/-- Modelled from the spec: `ensure_a_list` is imported from
`dynaconf.utils`, which is not among the sources under review; §4.1 says a
non-sequence specifier is "split into a candidate list (e.g. on a
path-separator convention)".  Modelled as splitting on "," with
whitespace trimmed and empty pieces dropped. -/
def ensure_a_list (s : String) : List String :=
  ((splitComma s).map strTrim).filter (fun p => p != "")

/-- A `filename` argument (or the store's configured default for the
loader): absent, a single string, or an explicit list/tuple of strings. -/
inductive FileSpec where
  | none : FileSpec
  | str : String → FileSpec
  | list : List String → FileSpec

/-- Python truthiness of a `FileSpec` (`if not filename`). -/
def fsTruthy : FileSpec → Bool
  | FileSpec.none => false
  | FileSpec.str s => s != ""
  | FileSpec.list l => !l.isEmpty

/-- The configuration switches `BaseLoader` reads from the settings store
`obj` via `obj.get(...)`.  `ENCODING_FOR_DYNACONF` only parameterises
`io.open` and has no modelled effect. -/
structure StoreConfig where
  /-- `obj.get("ENVLESS_MODE_FOR_DYNACONF")` (line 68): an arbitrary
  Python value, compared with `is True`. -/
  envlessMode : PValue
  /-- `obj.get("ENVVAR_PREFIX_FOR_DYNACONF")` (line 132): an arbitrary
  Python value, passed through `(... or "").lower()`. -/
  envvarPrefixVal : PValue
  /-- `obj.get("DEFAULT_ENV_FOR_DYNACONF")` (lines 134, 160): the code
  calls `.lower()` on it unconditionally, so it is modelled as a string. -/
  defaultEnv : String
  /-- `obj.get(self.identifier.upper())` (line 53): the store's configured
  default filename specifier for this loader. -/
  loaderDefault : FileSpec

/-- The loader instance: its store switches, format identifier, recognised
extensions, and the Environment List.  The list is modelled from the spec:
`build_env_list(self.obj, self.env)` (line 143) comes from
`dynaconf.utils`, not among the sources under review; §6 names the
environment-list builder an external collaborator whose output order is
consumed as-is, so the built list is a parameter here. -/
structure Loader where
  cfg : StoreConfig
  identifier : String
  extensions : List String
  envList : List String

/-- The reading side effects: `readFile` models opening and parsing a file
path (`Option.none` is an `IOError`, i.e. the file does not exist; parse
failures propagate in Python and are outside the modelled domain), and
`readString` models `string_reader` on inline content.  An empty list is
falsy parsed content. -/
structure SourceEnv where
  readFile : String → Option (List (String × PValue))
  readString : String → List (String × PValue)

/-- One call into the settings store: `obj.update(...)` (line 197) or
`obj.set(...)` (line 204), with the data and the tags each call carries. -/
inductive SinkCall where
  | update (data : List (String × PValue)) (loader_identifier : String)
      (is_secret : Bool) (merge : PValue)
  | set (key : String) (value : PValue) (loader_identifier : String)
      (is_secret : Bool) (merge : PValue)

/-- An observable event of a load: a sink call, or a warning logged via
`obj.logger.warning` (line 155).  Debug-level traces are not modelled. -/
inductive LoadEvent where
  | sink : SinkCall → LoadEvent
  | warn : String → LoadEvent

/-- `{k.lower(): value for k, value in file_data.items()}` (line 124). -/
def lowerKeys (d : List (String × PValue)) : List (String × PValue) :=
  d.foldl (fun acc p => dictInsert acc (strLower p.1) p.2) []

/-- `{upperfy(k): v for k, v in data.items()}` (line 181). -/
def upperKeys (d : List (String × PValue)) : List (String × PValue) :=
  d.foldl (fun acc p => dictInsert acc (upperfy p.1) p.2) []

/-- `(self.obj.get("ENVVAR_PREFIX_FOR_DYNACONF") or "").lower()`
(line 132): a truthy string is lower-cased, any falsy value falls back to
`""`.  A truthy non-string would raise in Python and is outside the
modelled domain. -/
def prefixLowered : PValue → String
  | PValue.str s => strLower s
  | _ => ""

/-- The `base_envs` list (lines 130-141). -/
def base_envs (ld : Loader) : List String :=
  [ prefixLowered ld.cfg.envvarPrefixVal,
    strLower ld.cfg.defaultEnv,
    "development",
    "dynaconf",
    "global" ]

/-- `_set_data_to_obj` (lines 169-210).  `key0 = Option.none` models the
Python default `key=False`; `_env` is used only in the omitted debug
trace (lines 189-191).  Note line 194,
`file_merge = file_merge or data.pop("DYNACONF_MERGE", False)`: the pop
runs only when the incoming `file_merge` is falsy (Python `or`
short-circuits), in which case its result — the block's own value, or
`False` when the key is absent — becomes the merge flag. -/
def _set_data_to_obj (_ld : Loader) (data0 : List (String × PValue))
    (identifier : String) (source_file : String) (file_merge0 : PValue)
    (key0 : Option String) (_env : String) : List LoadEvent :=
  let data1 := upperKeys data0
  let key : Option String :=
    match key0 with
    | some k => if k == "" then some k else some (upperfy k)
    | Option.none => Option.none
  let is_secret := strContains source_file "secret"
  let popped :=
    if pyTruthy file_merge0 then (file_merge0, data1)
    else
      match dictPop data1 "DYNACONF_MERGE" with
      | some q => q
      | Option.none => (PValue.bool false, data1)
  let file_merge := popped.1
  let data := popped.2
  match key with
  | Option.none =>
      [LoadEvent.sink (SinkCall.update data identifier is_secret file_merge)]
  | some k =>
      if k == "" then
        [LoadEvent.sink (SinkCall.update data identifier is_secret file_merge)]
      else if dictHasKey data k then
        [LoadEvent.sink
          (SinkCall.set k (dictGetD data k PValue.none) identifier is_secret
            file_merge)]
      else []

/-- `_envless_load` (lines 111-116): each source's data is forwarded
as-is under the base identifier.  `silent` is accepted and unused, as in
the source; `file_merge` defaults to `None` and `env` to `False` (the
latter shows up only in the unmodelled debug trace, passed here as ""). -/
def _envless_load (ld : Loader)
    (source_data : List (String × List (String × PValue)))
    (_silent : Bool) (key : Option String) : List LoadEvent :=
  source_data.foldl
    (fun evs p => evs ++ _set_data_to_obj ld p.2 ld.identifier p.1 PValue.none key "")
    []

/-- The body of the per-environment loop of `_load_all_envs`
(lines 143-167), for one environment name.  `file_data` already has
lower-cased keys.  `data = file_data[env] or {}` (line 147): a falsy
block value becomes `{}`; a truthy non-dict block would raise in
`.items()` in Python and is outside the modelled domain. -/
def loadEnv (ld : Loader) (silent : Bool) (key : Option String)
    (source_file : String) (file_data : List (String × PValue))
    (file_merge : PValue) (env0 : String) : Except String (List LoadEvent) :=
  let env := strLower env0
  match dictGetOpt file_data env with
  | Option.none =>
      if (base_envs ld).contains env then Except.ok []
      else
        -- the source builds this message as "... env not" "defined in ...",
        -- so the space between "not" and "defined" is genuinely missing
        let message :=
          ld.identifier ++ "_loader: " ++ env ++ " env notdefined in " ++ source_file
        if silent then Except.ok [LoadEvent.warn message]
        else Except.error message
  | some v =>
      let data : List (String × PValue) :=
        match v with
        | PValue.dict d => d
        | _ => []
      let identifier :=
        if env != strLower ld.cfg.defaultEnv then ld.identifier ++ "_" ++ env
        else ld.identifier
      Except.ok (_set_data_to_obj ld data identifier source_file file_merge key env)

/-- The per-environment loop of `_load_all_envs` (line 143), over the
Environment List, concatenating events and propagating a `KeyError`. -/
def loadEnvs (ld : Loader) (silent : Bool) (key : Option String)
    (source_file : String) (file_data : List (String × PValue))
    (file_merge : PValue) : List String → Except String (List LoadEvent)
  | [] => Except.ok []
  | env :: rest => do
      let evs ← loadEnv ld silent key source_file file_data file_merge env
      let more ← loadEnvs ld silent key source_file file_data file_merge rest
      pure (evs ++ more)

/-- The per-source body of `_load_all_envs` (lines 121-167): lower-case
the top-level keys, read the top-level `dynaconf_merge` flag
(`file_data.get("dynaconf_merge")`, line 127, default `None`), then run
the environment loop. -/
def loadOneSource (ld : Loader) (silent : Bool) (key : Option String)
    (source_file : String) (file_data0 : List (String × PValue)) :
    Except String (List LoadEvent) :=
  let file_data := lowerKeys file_data0
  let file_merge := dictGetD file_data "dynaconf_merge" PValue.none
  loadEnvs ld silent key source_file file_data file_merge ld.envList

/-- `_load_all_envs` (lines 118-167): the loop over the sources. -/
def _load_all_envs (ld : Loader)
    (source_data : List (String × List (String × PValue)))
    (silent : Bool) (key : Option String) : Except String (List LoadEvent) :=
  match source_data with
  | [] => Except.ok []
  | p :: rest => do
      let evs ← loadOneSource ld silent key p.1 p.2
      let more ← _load_all_envs ld rest silent key
      pure (evs ++ more)

/-- One iteration of the `get_source_date` loop (lines 78-108): a file
path with a recognised extension is opened and parsed (a missing file is
ignored), anything else goes through the string reader; falsy content is
dropped.  The `obj._loaded_files` audit append and the debug logs are
diagnostics and are not modelled. -/
def readOneSource (ld : Loader) (se : SourceEnv)
    (data : List (String × List (String × PValue)))
    (source_file : String) : List (String × List (String × PValue)) :=
  if endsWithAny source_file ld.extensions then
    match se.readFile source_file with
    | some content =>
        if content.isEmpty then data else dictInsert data source_file content
    | Option.none => data
  else
    if (se.readString source_file).isEmpty then data
    else dictInsert data source_file (se.readString source_file)

/-- `get_source_date` (lines 73-109): read each source in order into an
ordered dict `{"path/to/file.ext": {"key": "value"}}`. -/
def get_source_date (ld : Loader) (se : SourceEnv) (files : List String) :
    List (String × List (String × PValue)) :=
  files.foldl (readOneSource ld se) []

/-- The filename-resolution prologue of `load` (lines 53-64):
`Option.none` is the early `return` when neither an argument nor a
configured default is truthy; otherwise the list of Source Identifiers.
The inner `FileSpec.none` arm is unreachable (`fsTruthy` rules it out). -/
def resolveFiles (ld : Loader) (filename0 : FileSpec) : Option (List String) :=
  let filename := if fsTruthy filename0 then filename0 else ld.cfg.loaderDefault
  if fsTruthy filename then
    match filename with
    | FileSpec.str s =>
        let split_files := ensure_a_list s
        if split_files.all (fun f => endsWithAny f ld.extensions) then
          some split_files
        else
          some [s]
    | FileSpec.list l => some l
    | FileSpec.none => some []
  else Option.none

/-- `load` (lines 45-71): resolve the filenames, read the sources, then
dispatch on `obj.get("ENVLESS_MODE_FOR_DYNACONF") is True` (line 68). -/
def load (ld : Loader) (se : SourceEnv) (filename : FileSpec)
    (key : Option String) (silent : Bool) : Except String (List LoadEvent) :=
  match resolveFiles ld filename with
  | Option.none => Except.ok []
  | some files =>
      let source_data := get_source_date ld se files
      if pyIsTrue ld.cfg.envlessMode then
        Except.ok (_envless_load ld source_data silent key)
      else
        _load_all_envs ld source_data silent key

/-- The sink calls of an event trace, in order, warnings dropped. -/
def sinkCallsOf (evs : List LoadEvent) : List SinkCall :=
  evs.filterMap
    (fun e =>
      match e with
      | LoadEvent.sink c => some c
      | LoadEvent.warn _ => Option.none)

/-- The data a sink call would receive according to the merge-flag
resolution of line 194: the pop (and hence the removal of the reserved
key) happens only when the incoming top-level flag is falsy. -/
def strippedOf (d : List (String × PValue)) (fm : PValue) :
    List (String × PValue) :=
  if pyTruthy fm then d else dictRemove d "DYNACONF_MERGE"

/-- The merge flag a sink call would receive according to line 194: the
top-level flag when truthy, otherwise the block's own reserved-key value,
defaulting to `False`. -/
def mergeOf (d : List (String × PValue)) (fm : PValue) : PValue :=
  if pyTruthy fm then fm
  else (dictGetOpt d "DYNACONF_MERGE").getD (PValue.bool false)

/-- Does an event write the reserved merge key into the store, either as
an entry of a bulk update or as the key of a single-key set? -/
def writesReservedKey : LoadEvent → Bool
  | LoadEvent.sink (SinkCall.update d _ _ _) => dictHasKey d "DYNACONF_MERGE"
  | LoadEvent.sink (SinkCall.set k _ _ _ _) => k == "DYNACONF_MERGE"
  | LoadEvent.warn _ => false

/-- What one Source Identifier yields before the emptiness check: parsed
file content for a recognised extension (`Option.none` when the file does
not exist), the string-reader's output otherwise. -/
def sourceContent (ld : Loader) (se : SourceEnv) (f : String) :
    Option (List (String × PValue)) :=
  if endsWithAny f ld.extensions then se.readFile f else some (se.readString f)

/-- The entry a Source Identifier contributes to the Source Reader's
result: present exactly when the source exists and parses to non-empty
content. -/
def sourceEntry (ld : Loader) (se : SourceEnv) (f : String) :
    Option (String × List (String × PValue)) :=
  match sourceContent ld se f with
  | some content => if content.isEmpty then Option.none else some (f, content)
  | Option.none => Option.none

/-- The keys of a dict are pairwise distinct (true of every real Python
dict, and preserved by all dict operations modelled here). -/
def keysNodup {α : Type} (d : List (String × α)) : Prop :=
  (d.map Prod.fst).Nodup

/-- A loader configuration as in the C3 scenario of the spec: default
environment "development", prefix "DYNACONF", per-environment mode, no
configured default filename. -/
def tomlCfg : StoreConfig :=
  StoreConfig.mk PValue.none (PValue.str "DYNACONF") "development" FileSpec.none

/-- A `toml` loader over `tomlCfg` whose Environment List is the C3
scenario's `["default", "development"]`. -/
def tomlLoader : Loader :=
  Loader.mk tomlCfg "toml" [".toml", ".tml"] ["default", "development"]

/-- The C3 scenario's source data:
`{development: {A: 1, dynaconf_merge: true}, other: {A: 2}}`. -/
def c3Data : List (String × PValue) :=
  [("development",
      PValue.dict [("A", PValue.int 1), ("dynaconf_merge", PValue.bool true)]),
   ("other", PValue.dict [("A", PValue.int 2)])]

/-- A reading environment: `settings.toml` parses to `c3Data`,
`empty.toml` parses to nothing, any other path does not exist; inline
strings parse to a one-entry dict (or nothing, when empty). -/
def c3Env : SourceEnv :=
  SourceEnv.mk
    (fun f =>
      if f == "settings.toml" then some c3Data
      else if f == "empty.toml" then some []
      else Option.none)
    (fun s => if s == "" then [] else [(s, PValue.str "inline")])

/-- A configuration whose `ENVLESS_MODE_FOR_DYNACONF` is the truthy
string "true" — not the boolean `True`. -/
def strTrueCfg : StoreConfig :=
  StoreConfig.mk (PValue.str "true") (PValue.str "DYNACONF") "development"
    FileSpec.none

/-- A `toml` loader over `strTrueCfg`. -/
def strTrueLoader : Loader :=
  Loader.mk strTrueCfg "toml" [".toml"] ["development"]

theorem dictHasKey_iff_mem {α : Type} (d : List (String × α)) (k : String) :
    dictHasKey d k = true ↔ k ∈ d.map Prod.fst := by
  simp only [dictHasKey, List.any_eq_true, List.mem_map, beq_iff_eq]

theorem dictHasKey_false_iff {α : Type} (d : List (String × α)) (k : String) :
    dictHasKey d k = false ↔ k ∉ d.map Prod.fst := by
  constructor
  · intro h hm
    rw [← dictHasKey_iff_mem] at hm
    rw [h] at hm
    exact Bool.false_ne_true hm
  · intro h
    cases hc : dictHasKey d k
    · rfl
    · exact absurd ((dictHasKey_iff_mem d k).mp hc) h

theorem dictGetOpt_eq_none_iff {α : Type} (d : List (String × α)) (k : String) :
    dictGetOpt d k = Option.none ↔ dictHasKey d k = false := by
  simp [dictGetOpt, dictHasKey, List.find?_eq_none, List.any_eq_true]

theorem dictRemove_eq_self {α : Type} (d : List (String × α)) (k : String)
    (h : dictHasKey d k = false) : dictRemove d k = d := by
  induction d with
  | nil => rfl
  | cons p rest ih =>
      have hp : (p.1 == k) = false := by
        by_contra hc
        rw [dictHasKey_false_iff, List.map_cons, List.mem_cons] at h
        exact h (Or.inl (eq_of_beq (Bool.of_not_eq_false hc)).symm)
      have hr : dictHasKey rest k = false := by
        rw [dictHasKey_false_iff] at h ⊢
        intro hm
        exact h (List.mem_cons_of_mem _ hm)
      simp [dictRemove, hp, ih hr]

theorem dictPop_eq {α : Type} (d : List (String × α)) (k : String) :
    dictPop d k = (dictGetOpt d k).map (fun v => (v, dictRemove d k)) := by
  induction d with
  | nil => rfl
  | cons p rest ih =>
      by_cases h : (p.1 == k) = true
      · simp [dictPop, dictGetOpt, dictRemove, List.find?_cons_of_pos, h]
      · rw [Bool.not_eq_true] at h
        simp only [dictPop, dictGetOpt, dictRemove, h] at ih ⊢
        rw [List.find?_cons_of_neg _ (by simp [h]), ih]
        cases hg : List.find? (fun p => p.1 == k) rest with
        | none => simp [dictGetOpt, hg]
        | some q => simp [dictGetOpt, hg, Bool.false_eq_true, if_neg]

theorem map_fst_dictInsert {α : Type} (d : List (String × α)) (k : String) (v : α) :
    (dictInsert d k v).map Prod.fst =
      if dictHasKey d k then d.map Prod.fst else d.map Prod.fst ++ [k] := by
  unfold dictInsert
  by_cases h : dictHasKey d k
  · rw [if_pos h, if_pos h, List.map_map]
    refine List.map_congr_left ?_
    intro p _
    by_cases hp : (p.1 == k) = true
    · simp [hp, Function.comp, (eq_of_beq hp).symm]
    · simp [hp, Function.comp]
  · rw [if_neg h, if_neg h, List.map_append]
    rfl

theorem keysNodup_dictInsert {α : Type} (d : List (String × α)) (k : String)
    (v : α) (h : keysNodup d) : keysNodup (dictInsert d k v) := by
  unfold keysNodup at h ⊢
  rw [map_fst_dictInsert]
  by_cases hk : dictHasKey d k
  · simpa [hk] using h
  · rw [if_neg hk]
    have hk2 : dictHasKey d k = false := by
      cases hc : dictHasKey d k
      · rfl
      · exact absurd hc hk
    rw [dictHasKey_false_iff] at hk2
    rw [List.nodup_append]
    refine ⟨h, List.nodup_singleton k, ?_⟩
    intro a ha hb
    rw [List.mem_singleton] at hb
    exact hk2 (hb ▸ ha)

theorem keysNodup_foldl_dictInsert {α : Type} (f : String → String) :
    ∀ (d : List (String × α)) (acc : List (String × α)),
      keysNodup acc →
      keysNodup (d.foldl (fun a p => dictInsert a (f p.1) p.2) acc)
  | [], _, h => h
  | p :: rest, acc, h =>
      keysNodup_foldl_dictInsert f rest (dictInsert acc (f p.1) p.2)
        (keysNodup_dictInsert acc (f p.1) p.2 h)

theorem keysNodup_upperKeys (d : List (String × PValue)) :
    keysNodup (upperKeys d) := by
  unfold upperKeys
  exact keysNodup_foldl_dictInsert upperfy d [] (by simp [keysNodup])

theorem dictHasKey_dictRemove {α : Type} (d : List (String × α)) (k : String)
    (h : keysNodup d) : dictHasKey (dictRemove d k) k = false := by
  induction d with
  | nil => rfl
  | cons p rest ih =>
      unfold keysNodup at h
      rw [List.map_cons, List.nodup_cons] at h
      by_cases hp : (p.1 == k) = true
      · have : p.1 = k := eq_of_beq hp
        rw [dictHasKey_false_iff, ← this]
        simpa [dictRemove, hp] using h.1
      · rw [Bool.not_eq_true] at hp
        have := ih h.2
        simp [dictRemove, dictHasKey, hp] at this ⊢
        exact this

theorem upperfy_eq_empty_iff (k : String) : upperfy k = "" ↔ k = "" := by
  constructor
  · intro h
    have h2 : k.data.map Char.toUpper = [] := congrArg String.data h
    rw [List.map_eq_nil_iff] at h2
    cases k with
    | mk data => exact congrArg String.mk h2
  · intro h
    rw [h]
    rfl

theorem set_data_to_obj_none_eq (ld : Loader) (data : List (String × PValue))
    (identifier source_file : String) (fm : PValue) (env : String) :
    _set_data_to_obj ld data identifier source_file fm Option.none env =
      [LoadEvent.sink (SinkCall.update (strippedOf (upperKeys data) fm)
        identifier (strContains source_file "secret")
        (mergeOf (upperKeys data) fm))] := by
  unfold _set_data_to_obj strippedOf mergeOf
  by_cases h : pyTruthy fm = true
  · simp [h]
  · rw [Bool.not_eq_true] at h
    simp only [h, Bool.false_eq_true, if_false, dictPop_eq]
    cases hg : dictGetOpt (upperKeys data) "DYNACONF_MERGE" with
    | none =>
        rw [dictRemove_eq_self _ _ ((dictGetOpt_eq_none_iff _ _).mp hg)]
        simp
    | some v => simp

theorem set_data_to_obj_some_eq (ld : Loader) (data : List (String × PValue))
    (identifier source_file : String) (fm : PValue) (env : String) (k : String)
    (hk : k ≠ "") :
    _set_data_to_obj ld data identifier source_file fm (some k) env =
      (if dictHasKey (strippedOf (upperKeys data) fm) (upperfy k) then
        [LoadEvent.sink (SinkCall.set (upperfy k)
          (dictGetD (strippedOf (upperKeys data) fm) (upperfy k) PValue.none)
          identifier (strContains source_file "secret")
          (mergeOf (upperKeys data) fm))]
      else []) := by
  have hk2 : (k == "") = false := by
    rw [beq_eq_false_iff_ne]
    exact hk
  have hk3 : (upperfy k == "") = false := by
    rw [beq_eq_false_iff_ne]
    intro h
    exact hk ((upperfy_eq_empty_iff k).mp h)
  unfold _set_data_to_obj strippedOf mergeOf
  by_cases h : pyTruthy fm = true
  · simp [h, hk2, hk3]
  · rw [Bool.not_eq_true] at h
    simp only [h, Bool.false_eq_true, if_false, dictPop_eq, hk2, hk3]
    cases hg : dictGetOpt (upperKeys data) "DYNACONF_MERGE" with
    | none =>
        rw [dictRemove_eq_self _ _ ((dictGetOpt_eq_none_iff _ _).mp hg)]
        simp [hk2, hk3]
    | some v => simp [hk2, hk3]

theorem set_data_to_obj_empty_key_eq (ld : Loader)
    (data : List (String × PValue)) (identifier source_file : String)
    (fm : PValue) (env : String) :
    _set_data_to_obj ld data identifier source_file fm (some "") env =
      _set_data_to_obj ld data identifier source_file fm Option.none env := by
  unfold _set_data_to_obj
  simp

theorem readOneSource_none (ld : Loader) (se : SourceEnv)
    (data : List (String × List (String × PValue))) (f : String)
    (hc : sourceContent ld se f = Option.none) :
    readOneSource ld se data f = data := by
  unfold readOneSource
  unfold sourceContent at hc
  by_cases h : endsWithAny f ld.extensions = true
  · rw [if_pos h] at hc ⊢
    rw [hc]
  · rw [if_neg h] at hc
    cases hc

theorem readOneSource_some (ld : Loader) (se : SourceEnv)
    (data : List (String × List (String × PValue))) (f : String)
    (content : List (String × PValue))
    (hc : sourceContent ld se f = some content) :
    readOneSource ld se data f =
      (if content.isEmpty then data else dictInsert data f content) := by
  unfold readOneSource
  unfold sourceContent at hc
  by_cases h : endsWithAny f ld.extensions = true
  · rw [if_pos h] at hc ⊢
    rw [hc]
  · rw [if_neg h] at hc ⊢
    rw [Option.some.inj hc]

theorem sourceEntry_none (ld : Loader) (se : SourceEnv) (f : String)
    (hc : sourceContent ld se f = Option.none) :
    sourceEntry ld se f = Option.none := by
  unfold sourceEntry
  rw [hc]

theorem sourceEntry_some (ld : Loader) (se : SourceEnv) (f : String)
    (content : List (String × PValue))
    (hc : sourceContent ld se f = some content) :
    sourceEntry ld se f =
      (if content.isEmpty then Option.none else some (f, content)) := by
  unfold sourceEntry
  rw [hc]

theorem get_source_date_go (ld : Loader) (se : SourceEnv)
    (files : List String) :
    ∀ acc : List (String × List (String × PValue)),
      (∀ f ∈ files, dictHasKey acc f = false) → files.Nodup →
      List.foldl (readOneSource ld se) acc files =
        acc ++ files.filterMap (sourceEntry ld se) := by
  induction files with
  | nil =>
      intro acc _ _
      simp
  | cons f rest ih =>
      intro acc hd hn
      rw [List.foldl_cons, List.filterMap_cons]
      have hf : dictHasKey acc f = false := hd f (List.mem_cons_self f rest)
      have hnr : rest.Nodup := (List.nodup_cons.mp hn).2
      have hfr : f ∉ rest := (List.nodup_cons.mp hn).1
      have hdrest : ∀ g ∈ rest, dictHasKey acc g = false :=
        fun g hg => hd g (List.mem_cons_of_mem f hg)
      cases hc : sourceContent ld se f with
      | none =>
          rw [readOneSource_none ld se acc f hc, sourceEntry_none ld se f hc]
          exact ih acc hdrest hnr
      | some content =>
          rw [readOneSource_some ld se acc f content hc,
            sourceEntry_some ld se f content hc]
          by_cases he : content.isEmpty = true
          · rw [if_pos he, if_pos he]
            exact ih acc hdrest hnr
          · rw [if_neg he, if_neg he]
            have hins : dictInsert acc f content = acc ++ [(f, content)] := by
              unfold dictInsert
              rw [if_neg (by rw [hf]; exact Bool.false_ne_true)]
            rw [hins]
            rw [ih (acc ++ [(f, content)]) ?_ hnr]
            · rw [List.append_assoc]
              rfl
            · intro g hg
              have hg1 : dictHasKey acc g = false := hdrest g hg
              have hg2 : (f == g) = false := by
                rw [beq_eq_false_iff_ne]
                intro h
                exact hfr (h ▸ hg)
              simp only [dictHasKey, List.any_append] at hg1 ⊢
              simp [hg1, hg2]

/-- Claim C1 is false as stated: with a truthy top-level merge flag
(`True`) and a block whose own reserved key is `False`, the merge flag
passed to the sink is the top-level `True`, not the block's own `False`
(and the reserved key is not even removed), because
`file_merge or data.pop("DYNACONF_MERGE", False)` short-circuits. -/
theorem merge_override_counterexample :
    _set_data_to_obj tomlLoader
        [("a", PValue.int 1), ("dynaconf_merge", PValue.bool false)]
        "toml" "settings.toml" (PValue.bool true) Option.none "development" =
      [LoadEvent.sink (SinkCall.update
        [("A", PValue.int 1), ("DYNACONF_MERGE", PValue.bool false)]
        "toml" false (PValue.bool true))] ∧
    PValue.bool true ≠ PValue.bool false :=
  ⟨rfl, by simp⟩

/-- Claim C1, amended: the top-level merge flag, when truthy, is passed
to the sink unchanged and overrides the block's own reserved key (which
then stays in the data); only when the top-level flag is falsy does the
block's own `DYNACONF_MERGE` value (popped from the block, defaulting to
`False` when absent) become the merge flag, with falsy/absent meaning
replace semantics. -/
theorem merge_flag_resolution_amended (ld : Loader)
    (data : List (String × PValue)) (identifier source_file : String)
    (fm : PValue) (env : String) :
    _set_data_to_obj ld data identifier source_file fm Option.none env =
      [LoadEvent.sink (SinkCall.update
        (if pyTruthy fm then upperKeys data
         else dictRemove (upperKeys data) "DYNACONF_MERGE")
        identifier (strContains source_file "secret")
        (if pyTruthy fm then fm
         else (dictGetOpt (upperKeys data) "DYNACONF_MERGE").getD
           (PValue.bool false)))] :=
  set_data_to_obj_none_eq ld data identifier source_file fm env

/-- Claim C2 is false as stated: when the source also has a truthy
top-level merge flag, `data.pop("DYNACONF_MERGE", False)` is never
evaluated (Python `or` short-circuits), so the block's reserved key is
forwarded to the sink as a configuration value. -/
theorem reserved_key_forwarded_counterexample :
    (_set_data_to_obj tomlLoader
        [("b", PValue.int 2), ("dynaconf_merge", PValue.bool true)]
        "toml" "settings.toml" (PValue.str "merge_on") Option.none
        "development").any writesReservedKey = true :=
  rfl

/-- Claim C2, amended: whenever the top-level merge flag is falsy (the
only case in which the block's reserved key is read at all), the key is
removed before the sink is called, so no sink call — bulk update or
single-key set, under any key filter — writes `DYNACONF_MERGE` to the
settings store. -/
theorem reserved_key_stripped_when_flag_falsy (ld : Loader)
    (data : List (String × PValue)) (identifier source_file : String)
    (fm : PValue) (key0 : Option String) (env : String)
    (h : pyTruthy fm = false) :
    (_set_data_to_obj ld data identifier source_file fm key0 env).any
      writesReservedKey = false := by
  have hnd : keysNodup (upperKeys data) := keysNodup_upperKeys data
  have hstr : dictHasKey (strippedOf (upperKeys data) fm) "DYNACONF_MERGE"
      = false := by
    unfold strippedOf
    rw [h]
    simp only [Bool.false_eq_true, if_false]
    exact dictHasKey_dictRemove _ _ hnd
  cases key0 with
  | none =>
      rw [set_data_to_obj_none_eq]
      simp [writesReservedKey, hstr]
  | some k =>
      by_cases hk : k = ""
      · subst hk
        rw [set_data_to_obj_empty_key_eq, set_data_to_obj_none_eq]
        simp [writesReservedKey, hstr]
      · rw [set_data_to_obj_some_eq ld data identifier source_file fm env k hk]
        by_cases hmem :
            dictHasKey (strippedOf (upperKeys data) fm) (upperfy k) = true
        · rw [if_pos hmem]
          simp only [List.any_cons, List.any_nil, Bool.or_false,
            writesReservedKey]
          rw [beq_eq_false_iff_ne]
          intro he
          rw [he, hstr] at hmem
          exact Bool.false_ne_true hmem
        · rw [if_neg hmem]
          rfl

/-- Claim C2, amended, exercised at a concrete input: a falsy top-level
flag together with a block-level reserved key yields a bulk update
without the reserved key. -/
theorem reserved_key_stripped_when_flag_falsy_witness :
    (_set_data_to_obj tomlLoader
        [("b", PValue.int 2), ("dynaconf_merge", PValue.bool true)]
        "toml" "settings.toml" PValue.none Option.none "development").any
      writesReservedKey = false :=
  reserved_key_stripped_when_flag_falsy tomlLoader
    [("b", PValue.int 2), ("dynaconf_merge", PValue.bool true)]
    "toml" "settings.toml" PValue.none Option.none "development" rfl

/-- Claim C3: for the scenario source
`{development: {A: 1, dynaconf_merge: true}, other: {A: 2}}` with default
environment "development" and Environment List `["default",
"development"]`, `load` makes exactly one sink call: an update for the
"development" block with data `{A: 1}`, merge `True`, non-secret, under
the bare identifier "toml", and none for the "other" block. -/
theorem scenario_development_single_update :
    Except.map sinkCallsOf
        (load tomlLoader c3Env (FileSpec.str "settings.toml") Option.none
          true) =
      Except.ok [SinkCall.update [("A", PValue.int 1)] "toml" false
        (PValue.bool true)] :=
  rfl

/-- Claim C4: an environment name absent (lower-cased) from a source's
lowered data is skipped with no event at all when it is one of the Base
Environments; otherwise, in silent mode a warning naming the loader, the
environment, and the source is the only event (no sink call), and in
non-silent mode a `KeyError` with that message is raised. -/
theorem undefined_env_policy (ld : Loader) (silent : Bool)
    (key : Option String) (source_file : String)
    (file_data : List (String × PValue)) (file_merge : PValue)
    (env0 : String)
    (habs : dictGetOpt file_data (strLower env0) = Option.none) :
    loadEnv ld silent key source_file file_data file_merge env0 =
      (if (base_envs ld).contains (strLower env0) then Except.ok []
       else if silent then
         Except.ok [LoadEvent.warn (ld.identifier ++ "_loader: " ++
           strLower env0 ++ " env notdefined in " ++ source_file)]
       else
         Except.error (ld.identifier ++ "_loader: " ++ strLower env0 ++
           " env notdefined in " ++ source_file)) := by
  simp only [loadEnv, habs]

/-- Claim C4, exercised concretely: the non-base environment
"production" is absent from an empty source, so strict (non-silent) mode
raises a `KeyError` naming loader, environment and source. -/
theorem undefined_env_policy_witness :
    loadEnv tomlLoader false Option.none "settings.toml" [] PValue.none
        "production" =
      Except.error "toml_loader: production env notdefined in settings.toml" := by
  rw [undefined_env_policy tomlLoader false Option.none "settings.toml" []
    PValue.none "production" rfl]
  rfl

/-- Claim C5: a non-list filename specifier is split into candidates and
the candidates are used as the Source Identifiers exactly when every one
of them ends with a recognised extension, the whole original string
being a single Source Identifier otherwise; and with no specifier and no
configured default, `load` is a no-op returning immediately (for every
reading environment, so nothing is read). -/
theorem filename_resolution (ld : Loader) :
    (∀ s : String, s ≠ "" →
      resolveFiles ld (FileSpec.str s) =
        some (if (ensure_a_list s).all (fun f => endsWithAny f ld.extensions)
          then ensure_a_list s else [s])) ∧
    (fsTruthy ld.cfg.loaderDefault = false →
      ∀ (se : SourceEnv) (key : Option String) (silent : Bool),
        load ld se FileSpec.none key silent = Except.ok []) := by
  constructor
  · intro s hs
    have hs2 : (s == "") = false := by
      rw [beq_eq_false_iff_ne]
      exact hs
    unfold resolveFiles fsTruthy
    simp only [bne, hs2, Bool.not_false, if_true]
    by_cases h : (ensure_a_list s).all (fun f => endsWithAny f ld.extensions)
      = true
    · rw [if_pos h, if_pos h]
    · rw [if_neg h, if_neg h]
  · intro h se key silent
    unfold load resolveFiles
    cases hd : ld.cfg.loaderDefault with
    | none => simp [fsTruthy]
    | str s =>
        rw [hd] at h
        simp only [fsTruthy] at h
        simp [fsTruthy, h]
    | list l =>
        rw [hd] at h
        simp only [fsTruthy] at h
        simp [fsTruthy, h]

/-- Claim C5, exercised concretely: a comma-separated list of recognised
extensions splits; an inline string that does not end in a recognised
extension stays whole; no filename and no configured default is a
no-op. -/
theorem filename_resolution_witness :
    resolveFiles tomlLoader (FileSpec.str "a.toml, b.toml") =
        some ["a.toml", "b.toml"] ∧
    resolveFiles tomlLoader (FileSpec.str "k = v") = some ["k = v"] ∧
    load tomlLoader c3Env FileSpec.none Option.none true = Except.ok [] := by
  refine ⟨?_, ?_, ?_⟩
  · rw [(filename_resolution tomlLoader).1 "a.toml, b.toml" (by decide)]
    rfl
  · rw [(filename_resolution tomlLoader).1 "k = v" (by decide)]
    rfl
  · exact (filename_resolution tomlLoader).2 rfl c3Env Option.none true

/-- Claim C6: the Source Reader returns exactly the sources whose parsed
content is non-empty, in input order; a missing file contributes nothing
but does not abort the iteration, and empty content is omitted. -/
theorem source_reader_exact (ld : Loader) (se : SourceEnv)
    (files : List String) (h : files.Nodup) :
    get_source_date ld se files = files.filterMap (sourceEntry ld se) := by
  unfold get_source_date
  have hgo := get_source_date_go ld se files [] (fun f _ => rfl) h
  simpa using hgo

/-- Claim C6, exercised concretely: a missing file is skipped, the
following sources are still read, and an empty file is omitted. -/
theorem source_reader_exact_witness :
    get_source_date tomlLoader c3Env
        ["missing.toml", "settings.toml", "empty.toml", "x=1"] =
      [("settings.toml", c3Data), ("x=1", [("x=1", PValue.str "inline")])] := by
  rw [source_reader_exact tomlLoader c3Env
    ["missing.toml", "settings.toml", "empty.toml", "x=1"] (by decide)]
  rfl

/-- Claim C7: a truthy single-key filter is normalised with the same
`upperfy` used on the data's top-level keys; when the normalised key is
in the (normalised, reserved-key-resolved) mapping the one sink call is
a single-key set carrying exactly the identifier, secrecy flag and merge
flag that the bulk update of the same inputs carries, and when it is not
there is no sink call and no error. -/
theorem single_key_filter (ld : Loader) (data : List (String × PValue))
    (identifier source_file : String) (fm : PValue) (env : String)
    (k : String) (hk : k ≠ "") :
    _set_data_to_obj ld data identifier source_file fm (some k) env =
      (if dictHasKey (strippedOf (upperKeys data) fm) (upperfy k) then
        [LoadEvent.sink (SinkCall.set (upperfy k)
          (dictGetD (strippedOf (upperKeys data) fm) (upperfy k) PValue.none)
          identifier (strContains source_file "secret")
          (mergeOf (upperKeys data) fm))]
      else []) ∧
    _set_data_to_obj ld data identifier source_file fm Option.none env =
      [LoadEvent.sink (SinkCall.update (strippedOf (upperKeys data) fm)
        identifier (strContains source_file "secret")
        (mergeOf (upperKeys data) fm))] :=
  ⟨set_data_to_obj_some_eq ld data identifier source_file fm env k hk,
   set_data_to_obj_none_eq ld data identifier source_file fm env⟩

/-- Claim C7, exercised concretely: a present key "a" produces one set
call for "A" with the bulk tags, and an absent key "y" produces no sink
call. -/
theorem single_key_filter_witness :
    _set_data_to_obj tomlLoader [("a", PValue.int 1)] "toml" "settings.toml"
        PValue.none (some "a") "development" =
      [LoadEvent.sink (SinkCall.set "A" (PValue.int 1) "toml" false
        (PValue.bool false))] ∧
    _set_data_to_obj tomlLoader [("a", PValue.int 1)] "toml" "settings.toml"
        PValue.none (some "y") "development" = [] := by
  constructor
  · rw [(single_key_filter tomlLoader [("a", PValue.int 1)] "toml"
      "settings.toml" PValue.none "development" "a" (by decide)).1]
    rfl
  · rw [(single_key_filter tomlLoader [("a", PValue.int 1)] "toml"
      "settings.toml" PValue.none "development" "y" (by decide)).1]
    rfl

/-- Claim C8: `load` is deterministic — two runs on equal inputs (same
loader configuration, same reading environment, same filename, key and
silent arguments) produce equal results, hence the identical sequence of
sink calls. -/
theorem load_deterministic (ld₁ ld₂ : Loader) (se₁ se₂ : SourceEnv)
    (fn₁ fn₂ : FileSpec) (key₁ key₂ : Option String) (s₁ s₂ : Bool)
    (h₁ : ld₁ = ld₂) (h₂ : se₁ = se₂) (h₃ : fn₁ = fn₂) (h₄ : key₁ = key₂)
    (h₅ : s₁ = s₂) :
    load ld₁ se₁ fn₁ key₁ s₁ = load ld₂ se₂ fn₂ key₂ s₂ := by
  subst h₁ h₂ h₃ h₄ h₅
  rfl

/-- Claim C8, exercised concretely. -/
theorem load_deterministic_witness :
    load tomlLoader c3Env (FileSpec.str "settings.toml") Option.none true =
      load tomlLoader c3Env (FileSpec.str "settings.toml") Option.none true :=
  load_deterministic tomlLoader tomlLoader c3Env c3Env
    (FileSpec.str "settings.toml") (FileSpec.str "settings.toml")
    Option.none Option.none true true rfl rfl rfl rfl rfl

/-- Claim C9: the envless branch requires the store value to be exactly
the boolean `True` (Python `is True`); for any other value — including
truthy non-booleans such as the string "true" or the integer 1 — `load`
follows the per-environment partitioning path. -/
theorem envless_requires_bool_true (ld : Loader) (se : SourceEnv)
    (fn : FileSpec) (key : Option String) (silent : Bool)
    (files : List String) (hf : resolveFiles ld fn = some files)
    (hne : ld.cfg.envlessMode ≠ PValue.bool true) :
    load ld se fn key silent =
      _load_all_envs ld (get_source_date ld se files) silent key := by
  have hb : pyIsTrue ld.cfg.envlessMode = false := by
    cases hv : ld.cfg.envlessMode with
    | none => rfl
    | bool b =>
        cases b with
        | false => rfl
        | true => exact absurd hv hne
    | int n => rfl
    | str s => rfl
    | dict d => rfl
  unfold load
  rw [hf]
  simp only [hb, Bool.false_eq_true, if_false]

/-- Claim C9, exercised concretely: `ENVLESS_MODE_FOR_DYNACONF` set to
the truthy string "true" still takes the per-environment path. -/
theorem envless_requires_bool_true_witness :
    load strTrueLoader c3Env (FileSpec.str "settings.toml") Option.none
        true =
      _load_all_envs strTrueLoader
        (get_source_date strTrueLoader c3Env ["settings.toml"]) true
        Option.none :=
  envless_requires_bool_true strTrueLoader c3Env
    (FileSpec.str "settings.toml") Option.none true ["settings.toml"] rfl
    (by simp [strTrueLoader, strTrueCfg])

/-- Claim C10: a falsy single-key filter (the empty string) is treated
exactly like no key filter: `_set_data_to_obj` performs the bulk update
of the full normalised (reserved-key-resolved) mapping, not a single-key
set and not a no-op. -/
theorem falsy_key_bulk_update (ld : Loader) (data : List (String × PValue))
    (identifier source_file : String) (fm : PValue) (env : String) :
    _set_data_to_obj ld data identifier source_file fm (some "") env =
      _set_data_to_obj ld data identifier source_file fm Option.none env ∧
    _set_data_to_obj ld data identifier source_file fm (some "") env =
      [LoadEvent.sink (SinkCall.update (strippedOf (upperKeys data) fm)
        identifier (strContains source_file "secret")
        (mergeOf (upperKeys data) fm))] := by
  refine ⟨set_data_to_obj_empty_key_eq ld data identifier source_file fm env,
    ?_⟩
  rw [set_data_to_obj_empty_key_eq, set_data_to_obj_none_eq]
